import Mathlib

/-!
Verification of the Guitar-Hero rhythm-game core (`src/types.ts`, `src/state.ts`,
`src/util.ts`, `src/main.ts`).

The pure state-update / hit-detection reducer is embedded shallowly:

* `NoteObject`, `CircleObj`, `State` mirror the type declarations of `types.ts`;
  the SVG circle element held by a `CircleObj` is modelled by `SVGElem`, carrying
  its object identity (fresh per `createCircleObj` call) and its `cx` attribute,
  the only data of the element the core reads.
* `Tick.apply`, `RemoveCircle.apply`, `UpdateCircleState.apply`, `GameEnd.apply`
  and `initialState` come from `state.ts`; `handleKeyPress`, `keyToPositionMapping`,
  `determineCxPosition`, `createCircleObj` and the `RNG` utilities from `util.ts`.
* JavaScript `number` arithmetic on integers is embedded as `Int`/`Nat`; the RNG
  values live in `Rat` (`Math.floor` becomes `Int.floor`).
* The fallible part of `handleKeyPress` — the miss branch indexes `state.notes`
  with a random index and `playSound` dereferences the resulting element, which
  throws a `TypeError` when the index is out of bounds (`undefined`) — is
  embedded with `Option`: `none` models the thrown exception.
* JavaScript reference (in)equality `!==` on circle objects is modelled by
  comparing the identities of the SVG elements they hold: every circle object in
  a state's list holds a distinct, freshly created element, and rebuilding a
  circle (`{...circle, yPos}`) preserves its element.
-/

/-- `NoteObject` of `types.ts`: one parsed chart row.  `start`/`end` are seconds
(floats in the source, embedded as `Rat`; the core never computes with them). -/
structure NoteObject where
  user_played : Bool
  instrument_name : String
  velocity : Int
  pitch : Int
  start : Rat
  «end» : Rat
deriving DecidableEq, Repr

/-- Model of the SVG circle element created by `createCircleObj`: its object
identity `id` (fresh per creation) and its `cx` attribute. -/
structure SVGElem where
  id : Nat
  cx : String
deriving DecidableEq, Repr

/-- `CircleObj` of `types.ts`: an active falling note. -/
structure CircleObj where
  note : NoteObject
  circle : SVGElem
  yPos : Int
deriving DecidableEq, Repr

/-- `State` of `types.ts`. -/
structure State where
  gameEnd : Bool
  notes : List NoteObject
  score : Int
  time : Int
  circles : List CircleObj
  exits : List CircleObj
deriving DecidableEq, Repr

/-- The four playable keys (`Key` of `types.ts`). -/
inductive Key where
  | KeyH
  | KeyJ
  | KeyK
  | KeyL
deriving DecidableEq, Repr

/-- `initialState` of `state.ts`. -/
def initialState : State :=
  { gameEnd := false
    notes := []
    score := 0
    time := 0
    circles := []
    exits := [] }

/-- `Tick.apply` of `state.ts`: move every circle down 5 units, keep those with
new position `≤ 350`; `newExits` filters the *old* circle list on the
*pre-increment* positions (`circle.yPos > 350`), exactly as the source does. -/
def Tick.apply (s : State) : State :=
  let updatedCircles :=
    (s.circles.map (fun circle => { circle with yPos := circle.yPos + 5 })).filter
      (fun circle => decide (circle.yPos ≤ 350))
  let newExits := s.circles.filter (fun circle => decide (350 < circle.yPos))
  { s with
    circles := updatedCircles
    exits := s.exits ++ newExits
    time := s.time + 1 }

/-- `RemoveCircle.apply` of `state.ts`.  The source compares note references
(`circle.note !== this.note`); notes are embedded structurally. -/
def RemoveCircle.apply (note : NoteObject) (s : State) : State :=
  { s with circles := s.circles.filter (fun circle => circle.note != note) }

/-- `UpdateCircleState.apply` of `state.ts`: append the new circle. -/
def UpdateCircleState.apply (circle : CircleObj) (state : State) : State :=
  { state with circles := state.circles ++ [circle] }

/-- `GameEnd.apply` of `state.ts`. -/
def GameEnd.apply (s : State) : State :=
  { s with gameEnd := true }

/-- `determineCxPosition` of `util.ts`: `position[pitch % 4]` with
`position = ["20%","40%","60%","80%"]`.  JavaScript `%` truncates toward zero
(`Int.tmod`); an out-of-range index yields `undefined`, which `setAttribute`
stringifies. -/
def determineCxPosition (note : NoteObject) : String :=
  let colour := note.pitch.tmod 4
  if colour = 0 then "20%"
  else if colour = 1 then "40%"
  else if colour = 2 then "60%"
  else if colour = 3 then "80%"
  else "undefined"

/-- `createCircleObj` of `util.ts`: a fresh SVG element (identity `elemId`)
with `cy = 0`, `cx` from the pitch; the circle starts at `yPos = 0`. -/
def createCircleObj (elemId : Nat) (note : NoteObject) : CircleObj :=
  { note := note
    circle := { id := elemId, cx := determineCxPosition note }
    yPos := 0 }

/-- `keyToPositionMapping` of `util.ts`. -/
def keyToPositionMapping (keyCode : Key) : String :=
  match keyCode with
  | Key.KeyH => "20%"
  | Key.KeyJ => "40%"
  | Key.KeyK => "60%"
  | Key.KeyL => "80%"

/-- The predicate of the `find` in `handleKeyPress`: the circle's `cx`
attribute equals the target and `320 ≤ yPos ≤ 350`. -/
def hitPred (targetCx : String) (circle : CircleObj) : Bool :=
  circle.circle.cx == targetCx && decide (320 ≤ circle.yPos) && decide (circle.yPos ≤ 350)

/-- The miss branch's random index: `Math.floor((v + 1) / 2 * notes.length)`. -/
def randomIndex (v : Rat) (n : Nat) : Int :=
  ⌊(v + 1) / 2 * (n : Rat)⌋

/-- `handleKeyPress` of `util.ts`.  `v` is the value `getRandomValue()` would
return (it is consulted only in the miss branch).  The hit branch removes the
found circle by reference (`circle !== hitCircle`, embedded as element-identity
inequality) and adds 10 to the score.  The miss branch indexes
`state.notes[randomIndex]`; when that is `undefined` (index out of bounds),
`playSound` dereferences it and throws — embedded as `none`.  Otherwise the
score drops by 1, floored at 0. -/
def handleKeyPress (keyCode : Key) (state : State) (v : Rat) : Option State :=
  let targetCx := keyToPositionMapping keyCode
  match state.circles.find? (hitPred targetCx) with
  | some hitCircle =>
      some { state with
             circles := state.circles.filter
               (fun circle => circle.circle.id != hitCircle.circle.id)
             score := state.score + 10 }
  | none =>
      let i := randomIndex v state.notes.length
      match (if 0 ≤ i then state.notes.get? i.toNat else none) with
      | some _ => some { state with score := max 0 (state.score - 1) }
      | none => none

/-- LCG modulus of `RNG` in `util.ts` (`0x80000000`). -/
def RNG.m : Nat := 0x80000000

/-- LCG multiplier of `RNG` in `util.ts`. -/
def RNG.a : Nat := 1103515245

/-- LCG increment of `RNG` in `util.ts`. -/
def RNG.c : Nat := 12345

/-- `RNG.hash` of `util.ts`: `(a * seed + c) % m`. -/
def RNG.hash (seed : Nat) : Nat :=
  (RNG.a * seed + RNG.c) % RNG.m

/-- `RNG.scale` of `util.ts`: `(2 * hash) / (m - 1) - 1`, exact in `Rat`. -/
def RNG.scale (hash : Nat) : Rat :=
  2 * (hash : Rat) / ((RNG.m : Rat) - 1) - 1

/-- The value returned by call number `n + 1` of the function produced by
`createTriggeredRngStream seed`: each call first advances the lazy sequence
(`next`, i.e. one `hash`) and then scales, so call `k` returns
`scale (hash^[k] seed)`. -/
def rngNth (seed : Nat) (n : Nat) : Rat :=
  RNG.scale (RNG.hash^[n + 1] seed)

/-- The closed set of actions the host (`main.ts`) feeds the reducer:
`Tick`, `UpdateCircleState` with a freshly created circle, `RemoveCircle`,
a key press (with the RNG value the press would consume), and `GameEnd`. -/
inductive GAction where
  | tick : GAction
  | activate : Nat → NoteObject → GAction
  | removeCircle : NoteObject → GAction
  | press : Key → Rat → GAction
  | gameEnd : GAction

/-- `reduceState` dispatch: apply one action; `none` models a thrown
exception (only the miss branch of `handleKeyPress` can throw). -/
def applyAction (s : State) : GAction → Option State
  | GAction.tick => some (Tick.apply s)
  | GAction.activate elemId note => some (UpdateCircleState.apply (createCircleObj elemId note) s)
  | GAction.removeCircle note => some (RemoveCircle.apply note s)
  | GAction.press k v => handleKeyPress k s v
  | GAction.gameEnd => some (GameEnd.apply s)

/-- Fold a sequence of actions over a state (the `scan` of `main.ts`); stops
with `none` if any step throws. -/
def run (s : State) : List GAction → Option State
  | [] => some s
  | act :: rest => (applyAction s act).bind (fun s2 => run s2 rest)

/-- Actions of a seeded session: the RNG is not an input of the action but
internal state threaded by the runner, as `createTriggeredRngStream` holds it. -/
inductive SAction where
  | tick : SAction
  | activate : Nat → NoteObject → SAction
  | press : Key → SAction

/-- One step of the seeded game loop.  On a press the value a call of
`getRandomValue` would produce is `scale (hash rng)`; the source calls
`getRandomValue()` only inside the miss branch, so the stream state advances
exactly when the press misses. -/
def stepSeeded (s : State) (rng : Nat) : SAction → Option (State × Nat)
  | SAction.tick => some (Tick.apply s, rng)
  | SAction.activate elemId note =>
      some (UpdateCircleState.apply (createCircleObj elemId note) s, rng)
  | SAction.press k =>
    match handleKeyPress k s (RNG.scale (RNG.hash rng)) with
    | some s2 =>
        some (s2,
          if (s.circles.find? (hitPred (keyToPositionMapping k))).isSome then rng
          else RNG.hash rng)
    | none => none

/-- Fold a seeded session. -/
def runSeeded (s : State) (rng : Nat) : List SAction → Option (State × Nat)
  | [] => some (s, rng)
  | act :: rest => (stepSeeded s rng act).bind (fun p => runSeeded p.1 p.2 rest)

/-- The single-note chart of the spec's scenario. -/
def demoNote : NoteObject :=
  { user_played := true
    instrument_name := "piano"
    velocity := 80
    pitch := 60
    start := 0
    «end» := 1 }

/-- The circle the scenario's `Activate` creates (fresh element identity 0). -/
def demoCircle : CircleObj := createCircleObj 0 demoNote

/-- The scenario state right after the `Activate` at `t = 0`. -/
def scenarioStart : State :=
  UpdateCircleState.apply demoCircle { initialState with notes := [demoNote] }

/-- The scenario state after 64 further `Tick` actions. -/
def scenarioAfterTicks : State := Tick.apply^[64] scenarioStart

/-- A circle whose pre-`Tick` position 348 crosses the 350 threshold during the
`Tick` (new position 353). -/
def crossingCircle : CircleObj :=
  { note := demoNote, circle := { id := 0, cx := "20%" }, yPos := 348 }

/-- A state holding just `crossingCircle`. -/
def crossingState : State := { initialState with circles := [crossingCircle] }

/-- A state with an empty chart and a nonzero score, about to take the miss path. -/
def missState : State := { initialState with score := 5 }

/-- A state with a non-empty chart, no circles, and score 5: a press misses. -/
def missWitnessState : State :=
  { initialState with notes := [demoNote], score := 5 }

/-- A circle of the demo note sitting at position 330, inside the hit window. -/
def windowCircle : CircleObj :=
  { note := demoNote, circle := { id := 7, cx := "20%" }, yPos := 330 }

/-- A state whose only circle is `windowCircle`. -/
def windowState : State :=
  { initialState with notes := [demoNote], circles := [windowCircle] }

/-- The states in which `exits` can never grow: every active circle is at or
below the threshold, and `exits` is already empty. -/
def GoodState (s : State) : Prop :=
  (∀ circle ∈ s.circles, circle.yPos ≤ 350) ∧ s.exits = []

theorem randomIndex_nonneg (v : Rat) (n : Nat) (hv : -1 ≤ v) :
    0 ≤ randomIndex v n := by
  unfold randomIndex
  apply Int.floor_nonneg.mpr
  have h1 : (0 : Rat) ≤ (v + 1) / 2 := div_nonneg (by linarith) (by norm_num)
  exact mul_nonneg h1 (Nat.cast_nonneg n)

theorem randomIndex_lt (v : Rat) (n : Nat) (hn : 0 < n) (hv : v < 1) :
    randomIndex v n < (n : Int) := by
  unfold randomIndex
  rw [Int.floor_lt]
  push_cast
  have h1 : (v + 1) / 2 < 1 := by
    rw [div_lt_one (by norm_num)]
    linarith
  calc (v + 1) / 2 * (n : Rat) < 1 * (n : Rat) := by
        apply mul_lt_mul_of_pos_right h1
        exact_mod_cast hn
    _ = (n : Rat) := one_mul _

theorem handleKeyPress_hit (keyCode : Key) (s : State) (v : Rat) (c : CircleObj)
    (hfind : s.circles.find? (hitPred (keyToPositionMapping keyCode)) = some c) :
    handleKeyPress keyCode s v =
      some { s with
             circles := s.circles.filter (fun circle => circle.circle.id != c.circle.id)
             score := s.score + 10 } := by
  unfold handleKeyPress
  dsimp only
  rw [hfind]

theorem handleKeyPress_eq_some (keyCode : Key) (s : State) (v : Rat) (s2 : State)
    (h : handleKeyPress keyCode s v = some s2) :
    (∃ c, s.circles.find? (hitPred (keyToPositionMapping keyCode)) = some c ∧
      s2 = { s with
             circles := s.circles.filter (fun circle => circle.circle.id != c.circle.id)
             score := s.score + 10 }) ∨
    s2 = { s with score := max 0 (s.score - 1) } := by
  unfold handleKeyPress at h
  dsimp only at h
  cases hf : s.circles.find? (hitPred (keyToPositionMapping keyCode)) with
  | some c =>
    rw [hf] at h
    dsimp only at h
    simp only [Option.some.injEq] at h
    exact Or.inl ⟨c, rfl, h.symm⟩
  | none =>
    rw [hf] at h
    dsimp only at h
    split at h
    · simp only [Option.some.injEq] at h
      exact Or.inr h.symm
    · exact Option.noConfusion h

theorem filter_id_ne_eq_erase (l : List CircleObj) (c : CircleObj)
    (hc : c ∈ l) (hnd : (l.map (fun x => x.circle.id)).Nodup) :
    l.filter (fun x => x.circle.id != c.circle.id) = l.erase c := by
  induction l with
  | nil => cases hc
  | cons a t ih =>
    rw [List.map_cons, List.nodup_cons] at hnd
    obtain ⟨hna, hnt⟩ := hnd
    rcases List.mem_cons.mp hc with rfl | hct
    · rw [List.erase_cons_head, List.filter_cons_of_neg (by simp)]
      apply List.filter_eq_self.mpr
      intro x hx
      simp only [bne_iff_ne, ne_eq, decide_eq_true_eq]
      intro hxe
      exact hna (hxe ▸ List.mem_map_of_mem _ hx)
    · have haid : a.circle.id ≠ c.circle.id := by
        intro hgg
        exact hna (hgg ▸ List.mem_map_of_mem _ hct)
      have hac : (a == c) = false := by
        apply beq_false_of_ne
        intro hgg
        exact haid (congrArg (fun x => x.circle.id) hgg)
      rw [List.filter_cons_of_pos (by simpa [bne_iff_ne] using haid),
        List.erase_cons_tail (by simp [hac]), ih hct hnt]

theorem tick_goodState (s : State) (hg : GoodState s) : GoodState (Tick.apply s) := by
  obtain ⟨hy, he⟩ := hg
  constructor
  · intro circle hcirc
    have hmem : circle ∈ (s.circles.map
        (fun circle => { circle with yPos := circle.yPos + 5 })).filter
          (fun circle => decide (circle.yPos ≤ 350)) := hcirc
    exact of_decide_eq_true (List.mem_filter.mp hmem).2
  · show s.exits ++ s.circles.filter (fun circle => decide (350 < circle.yPos)) = []
    rw [he, List.nil_append]
    apply List.filter_eq_nil_iff.mpr
    intro c hc
    simpa using hy c hc

theorem applyAction_goodState (s : State) (act : GAction) (s2 : State)
    (hg : GoodState s) (h : applyAction s act = some s2) : GoodState s2 := by
  cases act with
  | tick =>
    simp only [applyAction, Option.some.injEq] at h
    subst h
    exact tick_goodState s hg
  | activate elemId note =>
    simp only [applyAction, Option.some.injEq] at h
    subst h
    obtain ⟨hy, he⟩ := hg
    refine ⟨?_, he⟩
    intro circle hcirc
    rcases List.mem_append.mp hcirc with hmem | hmem
    · exact hy circle hmem
    · obtain rfl := List.mem_singleton.mp hmem
      norm_num [createCircleObj]
  | removeCircle note =>
    simp only [applyAction, Option.some.injEq] at h
    subst h
    obtain ⟨hy, he⟩ := hg
    exact ⟨fun circle hcirc => hy circle (List.mem_of_mem_filter hcirc), he⟩
  | press k v =>
    simp only [applyAction] at h
    obtain ⟨hy, he⟩ := hg
    rcases handleKeyPress_eq_some k s v s2 h with ⟨c, -, rfl⟩ | rfl
    · exact ⟨fun circle hcirc => hy circle (List.mem_of_mem_filter hcirc), he⟩
    · exact ⟨hy, he⟩
  | gameEnd =>
    simp only [applyAction, Option.some.injEq] at h
    subst h
    exact hg

theorem run_goodState (acts : List GAction) (s s2 : State)
    (hg : GoodState s) (h : run s acts = some s2) : GoodState s2 := by
  induction acts generalizing s with
  | nil =>
    simp only [run, Option.some.injEq] at h
    subst h
    exact hg
  | cons act rest ih =>
    simp only [run, Option.bind_eq_some] at h
    obtain ⟨s3, h1, h2⟩ := h
    exact ih s3 (applyAction_goodState s act s3 hg h1) h2

theorem applyAction_score_nonneg (s : State) (act : GAction) (s2 : State)
    (hs : 0 ≤ s.score) (h : applyAction s act = some s2) : 0 ≤ s2.score := by
  cases act with
  | tick =>
    simp only [applyAction, Option.some.injEq] at h
    subst h
    exact hs
  | activate elemId note =>
    simp only [applyAction, Option.some.injEq] at h
    subst h
    exact hs
  | removeCircle note =>
    simp only [applyAction, Option.some.injEq] at h
    subst h
    exact hs
  | press k v =>
    simp only [applyAction] at h
    rcases handleKeyPress_eq_some k s v s2 h with ⟨c, -, rfl⟩ | rfl
    · show 0 ≤ s.score + 10
      omega
    · exact le_max_left 0 _
  | gameEnd =>
    simp only [applyAction, Option.some.injEq] at h
    subst h
    exact hs

theorem run_score_nonneg (acts : List GAction) (s s2 : State)
    (hs : 0 ≤ s.score) (h : run s acts = some s2) : 0 ≤ s2.score := by
  induction acts generalizing s with
  | nil =>
    simp only [run, Option.some.injEq] at h
    subst h
    exact hs
  | cons act rest ih =>
    simp only [run, Option.bind_eq_some] at h
    obtain ⟨s3, h1, h2⟩ := h
    exact ih s3 (applyAction_score_nonneg s act s3 hs h1) h2

theorem RNG.hash_lt (seed : Nat) : RNG.hash seed < RNG.m :=
  Nat.mod_lt _ (by norm_num [RNG.m])

theorem RNG.scale_mem (h : Nat) (hlt : h < RNG.m) :
    -1 ≤ RNG.scale h ∧ RNG.scale h ≤ 1 := by
  unfold RNG.scale
  have hm : ((RNG.m : Rat)) = 2147483648 := by norm_num [RNG.m]
  constructor
  · have hnn : (0 : Rat) ≤ 2 * (h : Rat) / ((RNG.m : Rat) - 1) := by
      apply div_nonneg
      · positivity
      · rw [hm]; norm_num
    linarith
  · have hh : (h : Rat) ≤ (RNG.m : Rat) - 1 := by
      have hcast : (h : Rat) + 1 ≤ (RNG.m : Rat) := by
        exact_mod_cast Nat.succ_le_of_lt hlt
      linarith
    have hpos : (0 : Rat) < (RNG.m : Rat) - 1 := by rw [hm]; norm_num
    have hdiv : 2 * (h : Rat) / ((RNG.m : Rat) - 1) ≤ 2 := by
      rw [div_le_iff₀ hpos]
      linarith
    linarith

/-- C1: code-bug exhibit.  A circle at pre-`Tick` position 348 moves to 353,
which is greater than 350, yet after the `Tick` it is in neither `circles` nor
`exits`: the source computes `newExits` from the pre-increment positions, so
the crossing note is silently dropped instead of being appended to `exits` as
the claimed exit partition requires. -/
theorem tick_drops_crossing_note :
    (crossingState.circles.map (fun circle => circle.yPos + 5) = [353]) ∧
    (Tick.apply crossingState).circles = [] ∧
    (Tick.apply crossingState).exits = [] := by
  decide

/-- C2: code-bug exhibit.  Pressing a lane key on the state with an empty
chart takes the miss path, indexes the empty `notes` array (JavaScript
`undefined`) and `playSound` dereferences it, throwing a `TypeError` — modelled
as `none`.  No valid no-op Miss state is produced, contrary to the claim. -/
theorem empty_chart_press_crashes :
    initialState.notes = [] ∧ handleKeyPress Key.KeyH initialState 0 = none := by
  refine ⟨rfl, ?_⟩
  unfold handleKeyPress
  simp [initialState]

/-- C3: when the pressed key's lane search finds an active circle `c` in the
hit window, the press removes exactly that circle from `circles` (the element
identities of the circles are pairwise distinct, as the source guarantees by
creating a fresh SVG element per circle), adds exactly 10 to `score`, and
leaves `exits`, `notes`, `time` and `gameEnd` unchanged — `c` is not added to
`exits`. -/
theorem hit_exclusivity (keyCode : Key) (s : State) (v : Rat) (c : CircleObj)
    (hfind : s.circles.find? (hitPred (keyToPositionMapping keyCode)) = some c)
    (hnd : (s.circles.map (fun x => x.circle.id)).Nodup) :
    handleKeyPress keyCode s v =
      some { s with circles := s.circles.erase c, score := s.score + 10 } := by
  rw [handleKeyPress_hit keyCode s v c hfind,
    filter_id_ne_eq_erase s.circles c (List.mem_of_find?_eq_some hfind) hnd]

theorem hit_exclusivity_witness :
    windowState.circles.find? (hitPred (keyToPositionMapping Key.KeyH)) = some windowCircle ∧
    (windowState.circles.map (fun x => x.circle.id)).Nodup ∧
    handleKeyPress Key.KeyH windowState 0 =
      some { windowState with
             circles := windowState.circles.erase windowCircle
             score := windowState.score + 10 } :=
  ⟨by decide, by decide, hit_exclusivity Key.KeyH windowState 0 windowCircle (by decide) (by decide)⟩

/-- C4: starting from the initial state (score 0) over any chart, every state
produced by a sequence of `Tick` and key-press actions has `score ≥ 0`
(intermediate states are covered because every prefix of such a sequence is
again such a sequence). -/
theorem score_floor (chart : List NoteObject) (acts : List GAction) (s : State)
    (_hacts : ∀ act ∈ acts, act = GAction.tick ∨ ∃ k v, act = GAction.press k v)
    (h : run { initialState with notes := chart } acts = some s) :
    0 ≤ s.score :=
  run_score_nonneg acts _ s (le_refl 0) h

theorem score_floor_witness :
    0 ≤ (Tick.apply { initialState with notes := [] }).score :=
  score_floor [] [GAction.tick] _
    (by
      intro act hact
      obtain rfl := List.mem_singleton.mp hact
      exact Or.inl rfl)
    rfl

/-- C5 counterexample: in the state with an empty chart and score 5, a press of
`KeyH` has no matching note in the window (`find?` is `none`), but the key press
does not produce a state with score 4 and unchanged `circles`/`exits` — it
produces no state at all (the random lookup into the empty chart crashes), so
the claim fails for this state. -/
theorem miss_penalty_counterexample :
    missState.circles.find? (hitPred (keyToPositionMapping Key.KeyH)) = none ∧
    handleKeyPress Key.KeyH missState 0 = none := by
  refine ⟨rfl, ?_⟩
  unfold handleKeyPress
  simp [missState, initialState]

/-- C5 (amended): for every state whose chart is non-empty, every pressed key
with no active note of that lane in the hit window, and an externally supplied
RNG value `v` with `-1 ≤ v < 1`, the press decreases `score` by exactly 1,
floored at 0, and leaves `circles`, `exits` and every other field unchanged. -/
theorem miss_penalty (keyCode : Key) (s : State) (v : Rat)
    (hfind : s.circles.find? (hitPred (keyToPositionMapping keyCode)) = none)
    (hn : s.notes ≠ []) (hv1 : -1 ≤ v) (hv2 : v < 1) :
    handleKeyPress keyCode s v = some { s with score := max 0 (s.score - 1) } := by
  unfold handleKeyPress
  dsimp only
  rw [hfind]
  have h0 : 0 ≤ randomIndex v s.notes.length := randomIndex_nonneg v _ hv1
  have hlt : randomIndex v s.notes.length < (s.notes.length : Int) :=
    randomIndex_lt v _ (List.length_pos.mpr hn) hv2
  have hti : (randomIndex v s.notes.length).toNat < s.notes.length := by omega
  rw [if_pos h0, List.get?_eq_get hti]

theorem miss_penalty_witness :
    handleKeyPress Key.KeyH missWitnessState 0 =
      some { missWitnessState with score := max 0 (missWitnessState.score - 1) } :=
  miss_penalty Key.KeyH missWitnessState 0 rfl (List.cons_ne_nil _ _)
    (by norm_num) (by norm_num)

/-- C6: two runs over the same chart, the same RNG seed and the same ordered
action sequence (`Tick` / `Activate` / `PressLane`) produce identical final
states; in particular the final `score` and elapsed tick count (`time`) are
identical — the reducer and the threaded linear-congruential RNG stream are
pure functions of their inputs. -/
theorem deterministic_replay (chart : List NoteObject) (seed : Nat)
    (acts : List SAction) (r1 r2 : State × Nat)
    (h1 : runSeeded { initialState with notes := chart } seed acts = some r1)
    (h2 : runSeeded { initialState with notes := chart } seed acts = some r2) :
    r1 = r2 ∧ r1.1.score = r2.1.score ∧ r1.1.time = r2.1.time := by
  rw [h1] at h2
  obtain rfl := Option.some.inj h2
  exact ⟨rfl, rfl, rfl⟩

theorem deterministic_replay_witness :
    ((Tick.apply { initialState with notes := [] }, 42) : State × Nat) =
        (Tick.apply { initialState with notes := [] }, 42) ∧
      (Tick.apply { initialState with notes := [] }).score =
        (Tick.apply { initialState with notes := [] }).score ∧
      (Tick.apply { initialState with notes := [] }).time =
        (Tick.apply { initialState with notes := [] }).time :=
  deterministic_replay [] 42 [SAction.tick] _ _ rfl rfl

/-- C7: the single-note scenario.  For the chart `[demoNote]` (user-played
piano note, velocity 80, pitch 60, start 0, end 1): after the `Activate` the
active set holds exactly one circle at position 0; pitch 60 maps to the first
lane (`60 % 4 = 0`, `cx = "20%"`, the lane of `KeyH`); after 64 `Tick` actions
the circle sits at `64 × 5 = 320`; pressing `KeyH` (whatever RNG value the
press would have consumed) is a Hit: score becomes 10 and the active set
empties. -/
theorem single_note_scenario (v : Rat) :
    scenarioStart.circles = [demoCircle] ∧
    demoCircle.yPos = 0 ∧
    determineCxPosition demoNote = "20%" ∧
    keyToPositionMapping Key.KeyH = "20%" ∧
    scenarioAfterTicks.circles.map (fun circle => circle.yPos) = [320] ∧
    handleKeyPress Key.KeyH scenarioAfterTicks v =
      some { scenarioAfterTicks with circles := [], score := 10 } :=
  ⟨by decide, by decide, by decide, by decide, by decide, rfl⟩

/-- C8: the triggered RNG stream is a pure LCG: for every non-negative seed
and every call count, the returned value (`rngNth seed n` is the value of call
`n + 1`) lies in `[-1, 1]`, and two streams created from the same seed return
equal values at every call count. -/
theorem rng_stream_bounds (seed seed2 n : Nat) (hsame : seed2 = seed) :
    (-1 ≤ rngNth seed n ∧ rngNth seed n ≤ 1) ∧ rngNth seed2 n = rngNth seed n := by
  subst hsame
  refine ⟨?_, rfl⟩
  unfold rngNth
  have hlt : RNG.hash^[n + 1] seed2 < RNG.m := by
    rw [Function.iterate_succ_apply']
    exact RNG.hash_lt _
  exact RNG.scale_mem _ hlt

theorem rng_stream_bounds_witness :
    ((-1 ≤ rngNth 42 0 ∧ rngNth 42 0 ≤ 1) ∧ rngNth 42 0 = rngNth 42 0) :=
  rng_stream_bounds 42 42 0 rfl

/-- C9: in every state reachable from the initial state (over any chart) by
the implemented actions — `Tick`, adding a freshly created circle at position
0, removing a circle, a key press, game end — the `exits` list is empty:
`Tick` selects its newly exited circles from the pre-increment positions of
the previous state, every reachable circle sits at position at most 350, and
no other operation appends to `exits`. -/
theorem exits_always_empty (chart : List NoteObject) (acts : List GAction) (s : State)
    (h : run { initialState with notes := chart } acts = some s) :
    s.exits = [] :=
  (run_goodState acts _ s ⟨fun circle hcirc => absurd hcirc (List.not_mem_nil circle), rfl⟩ h).2

theorem exits_always_empty_witness :
    (Tick.apply { initialState with notes := [] }).exits = [] :=
  exits_always_empty [] [GAction.tick] _ rfl

/-- C10: for a non-empty chart of length `n` and a random value `v` with
`-1 ≤ v < 1` (exact rational arithmetic), the miss branch's random index
`⌊(v + 1) / 2 * n⌋` lies in `[0, n - 1]`, so the random-note lookup into the
chart is in bounds (the lookup returns `some`); `v < 1` is the precondition
under which the out-of-bounds branch is unreachable. -/
theorem random_lookup_in_bounds (v : Rat) (notes : List NoteObject)
    (hn : notes ≠ []) (hv1 : -1 ≤ v) (hv2 : v < 1) :
    0 ≤ randomIndex v notes.length ∧
      (randomIndex v notes.length).toNat < notes.length ∧
      (notes.get? (randomIndex v notes.length).toNat).isSome := by
  have h0 := randomIndex_nonneg v notes.length hv1
  have hlt := randomIndex_lt v notes.length (List.length_pos.mpr hn) hv2
  have hti : (randomIndex v notes.length).toNat < notes.length := by omega
  refine ⟨h0, hti, ?_⟩
  rw [List.get?_eq_get hti]
  rfl

theorem random_lookup_in_bounds_witness :
    0 ≤ randomIndex 0 [demoNote].length ∧
      (randomIndex 0 [demoNote].length).toNat < [demoNote].length ∧
      ([demoNote].get? (randomIndex 0 [demoNote].length).toNat).isSome :=
  random_lookup_in_bounds 0 [demoNote] (List.cons_ne_nil _ _) (by norm_num) (by norm_num)
